import Mathlib

/-!
Verification of the retrieval-augmented context pipeline and structured-response
extraction engine of the meeting-summary application.

The extractor (`_parse_summary_response` in `llm_handler.py`) is embedded over
`List Char`.  Every regex used by the source has the restricted shape

    LIT (SEP LIT)* SEP? ( .*? ) (?= STOP1 | ... | STOPn | $ )

compiled with `re.DOTALL | re.IGNORECASE`, where each `LIT` is a fixed literal,
each `SEP` is `\s*` or `[:\s]*`, and the lookahead alternatives are fixed
literals.  For this shape Python's backtracking search is deterministic:

* every `\s*` / `[:\s]*` is followed either by a literal whose first character
  is not in the separator class, or by the capture group, and the capture group
  followed by the lookahead always succeeds (the `$` alternative matches at the
  end of every string), so the greedy separators never give back characters;
* the lazy group `(.*?)` therefore captures exactly the characters up to the
  first position at which one of the stop literals begins (case-insensitively)
  or at which `$` matches — in Python without `re.MULTILINE`, `$` matches at
  the end of the string and just before a single trailing newline;
* `re.search` returns the match at the leftmost position at which the leading
  literal chain matches.

The functions below implement exactly that semantics.
-/

set_option maxRecDepth 100000

namespace MeetingSummary

/-- Character lists stand for Python strings. -/
abbrev Str := List Char

/-- The characters matched by Python's `\s` (ASCII part, which is all the
source's fixed patterns and the modelled inputs use). -/
def isPySpace (c : Char) : Bool :=
  c == ' ' || c == '\t' || c == '\n' || c == '\r' || c == '\x0b' || c == '\x0c'

/-- Python `str.strip()`: remove leading and trailing whitespace. -/
def pyStrip (s : Str) : Str :=
  ((s.dropWhile isPySpace).reverse.dropWhile isPySpace).reverse

/-- Case-insensitive character comparison, modelling `re.IGNORECASE`. -/
def ciEqChar (a b : Char) : Bool := a.toLower == b.toLower

/-- Match a literal case-insensitively at the front of the input; return the
remaining input on success. -/
def ciStrip? : Str → Str → Option Str
  | [], s => some s
  | _ :: _, [] => none
  | p :: ps, c :: cs => if ciEqChar p c then ciStrip? ps cs else none

/-- One token of the fixed part of a source pattern that precedes the capture
group: a case-insensitive literal, `\s*`, or `[:\s]*`. -/
inductive Tok where
  | lit (l : Str)
  | ws
  | colonWs
deriving DecidableEq

/-- Match the token chain at the front of the input (greedy separators, which
is exact for the source's patterns, see the header comment).  Returns the
remaining input, i.e. the position where the capture group starts. -/
def matchToks : List Tok → Str → Option Str
  | [], s => some s
  | Tok.lit l :: ts, s =>
    match ciStrip? l s with
    | some rest => matchToks ts rest
    | none => none
  | Tok.ws :: ts, s => matchToks ts (s.dropWhile isPySpace)
  | Tok.colonWs :: ts, s => matchToks ts (s.dropWhile (fun c => c == ':' || isPySpace c))

/-- One source regex: the fixed part before `(.*?)` and the stop literals of
the lookahead (the `$` alternative is implicit, it is present in every source
pattern). -/
structure Pat where
  pre : List Tok
  stops : List Str
deriving DecidableEq

/-- Does the lookahead `(?= stop1 | ... | stopn | $)` succeed at this
position?  `$` (no `re.MULTILINE`) matches at the end and just before a single
trailing newline. -/
def isStopHere (stops : List Str) (s : Str) : Bool :=
  stops.any (fun l => (ciStrip? l s).isSome) || s == [] || s == ['\n']

/-- The lazy capture `(.*?)(?=...|$)`: the characters up to the first stop
position. -/
def lazyCapture (stops : List Str) : Str → Str
  | [] => []
  | c :: cs => if isStopHere stops (c :: cs) then [] else c :: lazyCapture stops cs

/-- `re.search(pattern, s, re.DOTALL | re.IGNORECASE)` for a source pattern:
the leftmost position where the fixed part matches wins, and the returned
value is `group(1)`. -/
def searchCapture (p : Pat) : Str → Option Str
  | [] =>
    match matchToks p.pre [] with
    | some rest => some (lazyCapture p.stops rest)
    | none => none
  | c :: cs =>
    match matchToks p.pre (c :: cs) with
    | some rest => some (lazyCapture p.stops rest)
    | none => searchCapture p cs

/-! The six sections and their ordered pattern lists, transcribed from the
`patterns` dictionary of `_parse_summary_response` (llm_handler.py, lines
152-183). -/

def summaryKey : Str := "summary".data
def meetingInfoKey : Str := "meeting_info".data
def topicsKey : Str := "topics".data
def actionItemsKey : Str := "action_items".data
def decisionsKey : Str := "decisions".data
def notesKey : Str := "notes".data

def summaryPats : List Pat :=
  [⟨[Tok.lit "## MEETING SUMMARY".data, Tok.ws], ["##".data, "###".data]⟩,
   ⟨[Tok.lit "##".data, Tok.ws, Tok.lit "MEETING".data, Tok.ws, Tok.lit "SUMMARY".data, Tok.ws],
    ["##".data, "###".data]⟩,
   ⟨[Tok.lit "MEETING SUMMARY".data, Tok.colonWs],
    ["MEETING INFORMATION".data, "KEY DETAILS".data]⟩]

def meetingInfoPats : List Pat :=
  [⟨[Tok.lit "### 📅 Meeting Information".data, Tok.ws], ["###".data]⟩,
   ⟨[Tok.lit "###".data, Tok.ws, Tok.lit "📅".data, Tok.ws, Tok.lit "Meeting Information".data, Tok.ws],
    ["###".data]⟩,
   ⟨[Tok.lit "MEETING INFORMATION".data, Tok.colonWs], ["MAIN TOPICS".data]⟩]

def topicsPats : List Pat :=
  [⟨[Tok.lit "### 🎯 Main Topics Discussed".data, Tok.ws], ["###".data]⟩,
   ⟨[Tok.lit "###".data, Tok.ws, Tok.lit "🎯".data, Tok.ws, Tok.lit "Main Topics Discussed".data, Tok.ws],
    ["###".data]⟩,
   ⟨[Tok.lit "MAIN TOPICS DISCUSSED".data, Tok.colonWs], ["ACTION ITEMS".data]⟩]

def actionItemsPats : List Pat :=
  [⟨[Tok.lit "### ⚡ Action Items & Next Steps".data, Tok.ws], ["###".data]⟩,
   ⟨[Tok.lit "###".data, Tok.ws, Tok.lit "⚡".data, Tok.ws, Tok.lit "Action Items & Next Steps".data, Tok.ws],
    ["###".data]⟩,
   ⟨[Tok.lit "ACTION ITEMS".data, Tok.colonWs], ["KEY DECISIONS".data]⟩]

def decisionsPats : List Pat :=
  [⟨[Tok.lit "### 🔑 Key Decisions Made".data, Tok.ws], ["###".data]⟩,
   ⟨[Tok.lit "###".data, Tok.ws, Tok.lit "🔑".data, Tok.ws, Tok.lit "Key Decisions Made".data, Tok.ws],
    ["###".data]⟩,
   ⟨[Tok.lit "KEY DECISIONS".data, Tok.colonWs], ["IMPORTANT NOTES".data]⟩]

def notesPats : List Pat :=
  [⟨[Tok.lit "### 📋 Important Notes & Follow-ups".data, Tok.ws], ["###".data]⟩,
   ⟨[Tok.lit "###".data, Tok.ws, Tok.lit "📋".data, Tok.ws, Tok.lit "Important Notes & Follow-ups".data, Tok.ws],
    ["###".data]⟩,
   ⟨[Tok.lit "IMPORTANT NOTES".data, Tok.colonWs], []⟩]

/-- Python `str.title()` restricted to what the source applies it to: a letter
is uppercased when the preceding character is not a letter and lowercased
otherwise. -/
def pyTitleGo : Bool → Str → Str
  | _, [] => []
  | prevAlpha, c :: cs =>
    (if c.isAlpha then (if prevAlpha then c.toLower else c.toUpper) else c) :: pyTitleGo c.isAlpha cs

def pyTitle (s : Str) : Str := pyTitleGo false s

/-- `f"{section_name.replace('_', ' ').title()} not available"` (llm_handler.py
line 198). -/
def placeholder (key : Str) : Str :=
  pyTitle (key.map (fun c => if c = '_' then ' ' else c)) ++ " not available".data

/-- The inner pattern loop (llm_handler.py lines 187-193): the first pattern
that produces a match wins (`break`), and `content` is `group(1).strip()`. -/
def findFirstMatch : List Pat → Str → Option Str
  | [], _ => none
  | p :: ps, s =>
    match searchCapture p s with
    | some cap => some (pyStrip cap)
    | none => findFirstMatch ps s

/-- Lines 195-199: `if content and content.strip(): sections[k] = content
else: sections[k] = placeholder`. -/
def sectionValue (key : Str) (pats : List Pat) (s : Str) : Str :=
  match findFirstMatch pats s with
  | some content => if content ≠ [] ∧ pyStrip content ≠ [] then content else placeholder key
  | none => placeholder key

/-- The `sections` dictionary: the fixed six keys plus the optional `error`
key. -/
structure SummaryRecord where
  summary : Str
  meeting_info : Str
  topics : Str
  action_items : Str
  decisions : Str
  notes : Str
  error : Option Str
deriving DecidableEq

/-- The six section values before the degenerate-case override. -/
def sectionValues (r : Str) : SummaryRecord :=
  { summary := sectionValue summaryKey summaryPats r
    meeting_info := sectionValue meetingInfoKey meetingInfoPats r
    topics := sectionValue topicsKey topicsPats r
    action_items := sectionValue actionItemsKey actionItemsPats r
    decisions := sectionValue decisionsKey decisionsPats r
    notes := sectionValue notesKey notesPats r
    error := none }

/-- `val.endswith("not available")`. -/
def na (s : Str) : Bool := "not available".data.isSuffixOf s

/-- `all(val.endswith("not available") for val in sections.values())`
(llm_handler.py line 202), evaluated before the `error` key exists. -/
def naAll (r : SummaryRecord) : Bool :=
  na r.summary && na r.meeting_info && na r.topics && na r.action_items &&
    na r.decisions && na r.notes

def errMsg : Str := "Failed to parse structured response - showing raw output".data

/-- The body of `_parse_summary_response` (llm_handler.py lines 141-206):
strip the response, extract the six sections, and apply the degenerate-case
override. -/
def parseSections (response0 : Str) : SummaryRecord :=
  if naAll (sectionValues (pyStrip response0)) then
    { sectionValues (pyStrip response0) with
        summary := pyStrip response0, error := some errMsg }
  else sectionValues (pyStrip response0)

/-- The record built by the `except` branch (llm_handler.py lines 208-213). -/
structure ErrorRecord where
  summary : Str
  error : Str
deriving DecidableEq

def parseErrorRecord (response : Str) (e : Str) : ErrorRecord :=
  { summary := if response ≠ [] then response else "No response received".data
    error := "Failed to parse structured response: ".data ++ e }

/-- `_parse_summary_response` with its `try/except`: every operation of the
try body (strip, the fixed regex searches, dictionary updates) is total in
this embedding, so execution always takes the normal path and the handler is
unreachable. -/
def parse_summary_response (response : Str) : SummaryRecord ⊕ ErrorRecord :=
  Sum.inl (parseSections response)

/-! Definitions following the wording of the specification, used to compare
the code's behaviour against the spec's description of the pattern loop. -/

/-- Follows the spec claim's wording for the pattern loop: the first pattern
that matches AND yields a non-empty trimmed capture wins; a pattern whose
trimmed capture is empty does not stop the search. -/
def findFirstNonEmpty : List Pat → Str → Option Str
  | [], _ => none
  | p :: ps, s =>
    match searchCapture p s with
    | some cap => if pyStrip cap ≠ [] then some (pyStrip cap) else findFirstNonEmpty ps s
    | none => findFirstNonEmpty ps s

/-- The section value under the claim's wording. -/
def sectionValueClaim (key : Str) (pats : List Pat) (s : Str) : Str :=
  (findFirstNonEmpty pats s).getD (placeholder key)

/-- Follows the amended wording: the first pattern that matches at all
provides the capture; if its trimmed value is empty the placeholder is used
without trying later patterns. -/
def sectionValueAmended (key : Str) (pats : List Pat) (s : Str) : Str :=
  match pats.findSome? (fun p => searchCapture p s) with
  | some cap => if pyStrip cap ≠ [] then pyStrip cap else placeholder key
  | none => placeholder key

/-! Embedding of `rag_system.py`.  The ChromaDB/LangChain vector store is an
external collaborator; it is modelled as a list of stored chunks plus a
`broken` flag standing for a backend whose calls raise. -/

/-- The metadata dictionary attached to each chunk (rag_system.py lines
50-55). -/
structure ChunkMeta where
  meeting_id : Str
  chunk_index : Nat
  chunk_type : Str
  total_chunks : Nat
deriving DecidableEq

/-- One (id, document, metadata) record held by the vector store. -/
structure StoredChunk where
  id : Str
  document : Str
  metadata : ChunkMeta
deriving DecidableEq

/-- Modelled from the spec: the embedding/vector-index collaborator (spec §6)
whose concrete implementation (ChromaDB) is outside the repository.  It holds
(text, metadata) records and supports filtered retrieval by `meeting_id`;
`broken` models a backend whose calls raise. -/
structure VectorStore where
  entries : List StoredChunk
  broken : Bool
deriving DecidableEq

/-- The chunks whose `meeting_id` metadata matches. -/
def matchingChunks (store : VectorStore) (mid : Str) : List StoredChunk :=
  store.entries.filter (fun c => c.metadata.meeting_id == mid)

/-- Modelled from the spec: `self.vectorstore.get(where={"meeting_id": mid})`
— filtered retrieval by the `meeting_id` metadata field (spec §6), raising
when the backend is broken. -/
def VectorStore.getByMeeting (store : VectorStore) (mid : Str) :
    Except Str (List StoredChunk) :=
  if store.broken then Except.error "backend failure".data
  else Except.ok (matchingChunks store mid)

/-- Chunk order used by `sorted(..., key=lambda x: x[1]['chunk_index'])`. -/
def chunkLe (a b : StoredChunk) : Prop :=
  a.metadata.chunk_index ≤ b.metadata.chunk_index

instance : DecidableRel chunkLe := fun _ _ => Nat.decLe _ _

instance : IsTotal StoredChunk chunkLe :=
  ⟨fun a b => Nat.le_total a.metadata.chunk_index b.metadata.chunk_index⟩

instance : IsTrans StoredChunk chunkLe := ⟨fun _ _ _ => Nat.le_trans⟩

/-- `get_meeting_context` (rag_system.py lines 91-113): `""` when the store is
not initialized, when the backend raises, or when no chunks match; otherwise
the matching chunk texts sorted by `chunk_index` and joined with single
spaces. -/
def get_meeting_context (vs : Option VectorStore) (mid : Str) : Str :=
  match vs with
  | none => []
  | some store =>
    match store.getByMeeting mid with
    | Except.error _ => []
    | Except.ok results =>
      if results ≠ [] then
        List.intercalate " ".data
          ((List.insertionSort chunkLe results).map (fun c => c.document))
      else []

/-- The metadata built for chunk `i` of `n` (rag_system.py lines 50-55). -/
def mkMeta (mid : Str) (i n : Nat) : ChunkMeta :=
  { meeting_id := mid, chunk_index := i, chunk_type := "transcript".data, total_chunks := n }

/-- `f"{meeting_id}_chunk_{i}"` (rag_system.py line 62). -/
def chunkId (mid : Str) (i : Nat) : Str := mid ++ "_chunk_".data ++ (Nat.repr i).data

/-- Zip ids, texts and metadatas into store records. -/
def mkEntries : List Str → List Str → List ChunkMeta → List StoredChunk
  | i :: is, t :: ts, m :: ms => ⟨i, t, m⟩ :: mkEntries is ts ms
  | _, _, _ => []

/-- Modelled from the spec: `vectorstore.add_texts(texts, metadatas, ids)` on
the external collaborator — indexing of (text, metadata) pairs (spec §6). -/
def add_texts (store : VectorStore) (texts : List Str) (metas : List ChunkMeta)
    (ids : List Str) : VectorStore :=
  { store with entries := store.entries ++ mkEntries ids texts metas }

/-- The records `add_texts` appends for a transcript's chunk list. -/
def transcriptEntries (mid : Str) (chunks : List Str) : List StoredChunk :=
  mkEntries ((List.range chunks.length).map (fun i => chunkId mid i)) chunks
    ((List.range chunks.length).map (fun i => mkMeta mid i chunks.length))

/-- `process_and_store_transcript` (rag_system.py lines 37-71).  The text
splitter is the external LangChain collaborator, passed as an abstract
function.  An uninitialized store or a raising backend lands in the `except`
branch, which returns a failure result. -/
def process_and_store_transcript (split : Str → List Str) (vs : Option VectorStore)
    (transcript mid : Str) : (Bool × Str) × Option VectorStore :=
  if split transcript = [] then
    ((false, "No chunks created from transcript".data), vs)
  else
    match vs with
    | none => ((false, "Error processing transcript: vector store unavailable".data), none)
    | some store =>
      if store.broken then
        ((false, "Error processing transcript: backend failure".data), some store)
      else
        ((true, "Successfully stored ".data ++ (Nat.repr (split transcript).length).data
            ++ " chunks".data),
         some (add_texts store (split transcript)
            ((List.range (split transcript).length).map
              (fun i => mkMeta mid i (split transcript).length))
            ((List.range (split transcript).length).map (fun i => chunkId mid i))))

/-- A document returned by similarity search. -/
structure RetrievedDoc where
  page_content : Str
deriving DecidableEq

/-- `retrieve_relevant_chunks` (rag_system.py lines 73-89).  The similarity
search is the external collaborator (spec §6 / §4.2 Contract B), passed as an
abstract function that may raise (`Except.error`); the `except` branch
returns `[]`. -/
def retrieve_relevant_chunks (search : Str → Nat → Except Str (List RetrievedDoc))
    (vs : Option VectorStore) (query : Str) (k : Nat) : List Str :=
  match vs with
  | none => []
  | some _ =>
    match search query k with
    | Except.error _ => []
    | Except.ok docs => docs.map (fun d => d.page_content)

/-! Helper lemmas about the extractor. -/

theorem placeholder_ne_nil (key : Str) : placeholder key ≠ [] := by
  unfold placeholder
  intro h
  exact absurd (List.append_eq_nil.mp h).2 (by decide)

theorem sectionValue_ne_nil (key : Str) (pats : List Pat) (s : Str) :
    sectionValue key pats s ≠ [] := by
  unfold sectionValue
  cases hf : findFirstMatch pats s with
  | none => exact placeholder_ne_nil key
  | some content =>
    show (if content ≠ [] ∧ pyStrip content ≠ [] then content else placeholder key) ≠ []
    by_cases hc : content ≠ [] ∧ pyStrip content ≠ []
    · rw [if_pos hc]; exact hc.1
    · rw [if_neg hc]; exact placeholder_ne_nil key

theorem sectionValue_of_none (key : Str) (pats : List Pat) (s : Str)
    (h : findFirstMatch pats s = none) : sectionValue key pats s = placeholder key := by
  unfold sectionValue
  rw [h]

theorem parseSections_meeting_info (response : Str) :
    (parseSections response).meeting_info =
      sectionValue meetingInfoKey meetingInfoPats (pyStrip response) := by
  unfold parseSections
  split <;> rfl

theorem parseSections_topics (response : Str) :
    (parseSections response).topics =
      sectionValue topicsKey topicsPats (pyStrip response) := by
  unfold parseSections
  split <;> rfl

theorem parseSections_action_items (response : Str) :
    (parseSections response).action_items =
      sectionValue actionItemsKey actionItemsPats (pyStrip response) := by
  unfold parseSections
  split <;> rfl

theorem parseSections_decisions (response : Str) :
    (parseSections response).decisions =
      sectionValue decisionsKey decisionsPats (pyStrip response) := by
  unfold parseSections
  split <;> rfl

theorem parseSections_notes (response : Str) :
    (parseSections response).notes =
      sectionValue notesKey notesPats (pyStrip response) := by
  unfold parseSections
  split <;> rfl

theorem parseSections_summary (response : Str) :
    (parseSections response).summary =
      (if naAll (sectionValues (pyStrip response)) then pyStrip response
       else sectionValue summaryKey summaryPats (pyStrip response)) := by
  unfold parseSections
  split <;> rfl

theorem parseSections_error (response : Str) :
    (parseSections response).error =
      (if naAll (sectionValues (pyStrip response)) then some errMsg else none) := by
  unfold parseSections
  split <;> rfl

theorem naAll_of_nil : naAll (sectionValues []) = true := by decide

/-- The six pre-override values when every pattern list fails. -/
def placeholderRecord : SummaryRecord :=
  { summary := placeholder summaryKey
    meeting_info := placeholder meetingInfoKey
    topics := placeholder topicsKey
    action_items := placeholder actionItemsKey
    decisions := placeholder decisionsKey
    notes := placeholder notesKey
    error := none }

/-! ### C1 — extraction totality -/

/-- C1, counterexample: on the empty input every section falls back to its
placeholder, the degenerate override fires, and it sets `summary` to the
stripped raw text — which is the empty string.  The claim that every one of
the six values is non-empty for every input is therefore false. -/
theorem extraction_totality_fails_on_empty_input :
    (parseSections "".data).summary = [] ∧
    (parseSections "".data).error = some errMsg := by decide

/-- C1 (amended): extraction is total and returns a record with all six
section keys; the five non-summary values are always non-empty, and `summary`
is empty exactly when the stripped input is empty (the degenerate override
copies the stripped raw text into `summary`). -/
theorem extraction_totality_amended (response : Str) :
    (parseSections response).meeting_info ≠ [] ∧
    (parseSections response).topics ≠ [] ∧
    (parseSections response).action_items ≠ [] ∧
    (parseSections response).decisions ≠ [] ∧
    (parseSections response).notes ≠ [] ∧
    ((parseSections response).summary = [] ↔ pyStrip response = []) := by
  refine ⟨?_, ?_, ?_, ?_, ?_, ?_⟩
  · rw [parseSections_meeting_info]; exact sectionValue_ne_nil _ _ _
  · rw [parseSections_topics]; exact sectionValue_ne_nil _ _ _
  · rw [parseSections_action_items]; exact sectionValue_ne_nil _ _ _
  · rw [parseSections_decisions]; exact sectionValue_ne_nil _ _ _
  · rw [parseSections_notes]; exact sectionValue_ne_nil _ _ _
  · rw [parseSections_summary]
    by_cases h : naAll (sectionValues (pyStrip response)) = true
    · rw [if_pos h]
    · rw [if_neg h]
      constructor
      · intro hs; exact absurd hs (sectionValue_ne_nil _ _ _)
      · intro he
        exact absurd (show naAll (sectionValues (pyStrip response)) = true by
          rw [he]; exact naAll_of_nil) h

/-! ### C2 — extraction non-loss -/

/-- C2, counterexample: for the non-empty input `"hello "` (no recoverable
heading, all six sections resolve to placeholders) the override fires and the
`error` key is present, but `summary` holds the STRIPPED input `"hello"`, not
the original input `"hello "`. -/
theorem extraction_non_loss_strips_input :
    "hello ".data ≠ [] ∧
    sectionValues (pyStrip "hello ".data) = placeholderRecord ∧
    (parseSections "hello ".data).error = some errMsg ∧
    (parseSections "hello ".data).summary ≠ "hello ".data := by decide

/-- C2 (amended): if all six sections resolve to their placeholders, the
returned record's `summary` equals the STRIPPED input and `error` holds the
fixed message; and the override fires exactly when all six pre-override
values end with `"not available"` (the condition the code actually tests). -/
theorem extraction_non_loss_amended (response : Str) :
    (sectionValues (pyStrip response) = placeholderRecord →
      (parseSections response).summary = pyStrip response ∧
      (parseSections response).error = some errMsg) ∧
    ((parseSections response).error = some errMsg ↔
      naAll (sectionValues (pyStrip response)) = true) := by
  constructor
  · intro hall
    have hna : naAll (sectionValues (pyStrip response)) = true := by
      rw [hall]; decide
    rw [parseSections_summary, parseSections_error, if_pos hna, if_pos hna]
    exact ⟨rfl, rfl⟩
  · rw [parseSections_error]
    by_cases h : naAll (sectionValues (pyStrip response)) = true
    · rw [if_pos h]
      exact ⟨fun _ => h, fun _ => rfl⟩
    · rw [if_neg h]
      exact ⟨fun hx => Option.noConfusion hx, fun hx => absurd hx h⟩

theorem extraction_non_loss_amended_check :
    (parseSections "hello ".data).summary = pyStrip "hello ".data ∧
    (parseSections "hello ".data).error = some errMsg :=
  (extraction_non_loss_amended "hello ".data).1 (by decide)

/-! ### C6 — exceptions are never propagated -/

/-- C6: extraction never propagates an exception: every operation of the try
body is total in the embedding, so `_parse_summary_response` always returns
the structured record of the normal path; and the (unreachable) handler's
record carries the raw text (or the placeholder when it is empty) as
`summary` together with an `error` key describing the failure. -/
theorem extraction_never_throws (response : Str) :
    parse_summary_response response = Sum.inl (parseSections response) ∧
    (∀ e : Str,
      (parseErrorRecord (pyStrip response) e).summary =
        (if pyStrip response ≠ [] then pyStrip response
         else "No response received".data) ∧
      (parseErrorRecord (pyStrip response) e).error =
        "Failed to parse structured response: ".data ++ e) :=
  ⟨rfl, fun _ => ⟨rfl, rfl⟩⟩

/-! ### C7 — the budget-meeting scenario -/

/-- C7: on the documented scenario input, `summary` is the text under the
summary heading, `topics` is the bullet, the remaining four sections hold
their placeholders, and no `error` key is present. -/
theorem scenario_budget_meeting :
    parseSections
        "## MEETING SUMMARY\nWe discussed budget.\n### 🎯 Main Topics Discussed\n- Budget\n".data =
      { summary := "We discussed budget.".data
        meeting_info := placeholder meetingInfoKey
        topics := "- Budget".data
        action_items := placeholder actionItemsKey
        decisions := placeholder decisionsKey
        notes := placeholder notesKey
        error := none } := by decide

/-! ### C8 — the placeholder formula -/

/-- C8, counterexample: for the input `"hello"` no summary pattern matches,
yet the returned record's `summary` is not the placeholder — the degenerate
override replaces it with the raw text. -/
theorem placeholder_override_cex :
    findFirstMatch summaryPats (pyStrip "hello".data) = none ∧
    (parseSections "hello".data).summary ≠ placeholder summaryKey := by decide

/-- C8 (amended): the placeholder is the section key with underscores
replaced by spaces, title-cased, with `" not available"` appended; a section
with no pattern match holds its placeholder — except `summary`, which the
degenerate override replaces with the stripped raw input whenever all six
values end with `"not available"`. -/
theorem placeholder_formula_amended (response : Str) :
    placeholder summaryKey = "Summary not available".data ∧
    placeholder meetingInfoKey = "Meeting Info not available".data ∧
    placeholder topicsKey = "Topics not available".data ∧
    placeholder actionItemsKey = "Action Items not available".data ∧
    placeholder decisionsKey = "Decisions not available".data ∧
    placeholder notesKey = "Notes not available".data ∧
    (findFirstMatch meetingInfoPats (pyStrip response) = none →
      (parseSections response).meeting_info = placeholder meetingInfoKey) ∧
    (findFirstMatch topicsPats (pyStrip response) = none →
      (parseSections response).topics = placeholder topicsKey) ∧
    (findFirstMatch actionItemsPats (pyStrip response) = none →
      (parseSections response).action_items = placeholder actionItemsKey) ∧
    (findFirstMatch decisionsPats (pyStrip response) = none →
      (parseSections response).decisions = placeholder decisionsKey) ∧
    (findFirstMatch notesPats (pyStrip response) = none →
      (parseSections response).notes = placeholder notesKey) ∧
    (findFirstMatch summaryPats (pyStrip response) = none →
      (parseSections response).summary =
        (if naAll (sectionValues (pyStrip response)) then pyStrip response
         else placeholder summaryKey)) := by
  refine ⟨by decide, by decide, by decide, by decide, by decide, by decide,
    ?_, ?_, ?_, ?_, ?_, ?_⟩
  · intro h; rw [parseSections_meeting_info, sectionValue_of_none _ _ _ h]
  · intro h; rw [parseSections_topics, sectionValue_of_none _ _ _ h]
  · intro h; rw [parseSections_action_items, sectionValue_of_none _ _ _ h]
  · intro h; rw [parseSections_decisions, sectionValue_of_none _ _ _ h]
  · intro h; rw [parseSections_notes, sectionValue_of_none _ _ _ h]
  · intro h; rw [parseSections_summary, sectionValue_of_none _ _ _ h]

theorem placeholder_formula_amended_check :
    (parseSections "hello ".data).meeting_info = placeholder meetingInfoKey ∧
    (parseSections "hello ".data).summary =
      (if naAll (sectionValues (pyStrip "hello ".data)) then pyStrip "hello ".data
       else placeholder summaryKey) :=
  ⟨(placeholder_formula_amended "hello ".data).2.2.2.2.2.2.1 (by decide),
   (placeholder_formula_amended "hello ".data).2.2.2.2.2.2.2.2.2.2.2 (by decide)⟩

/-! ### C10 — the endswith-based override quirk -/

/-- The input on which every section extracts successfully with non-empty,
non-placeholder content that happens to end with `"not available"`. -/
def overrideQuirkInput : Str :=
  ("## MEETING SUMMARY\nA not available\n### 📅 Meeting Information\nB not available\n" ++
   "### 🎯 Main Topics Discussed\nC not available\n### ⚡ Action Items & Next Steps\n" ++
   "D not available\n### 🔑 Key Decisions Made\nE not available\n" ++
   "### 📋 Important Notes & Follow-ups\nF not available").data

/-- C10: all six sections of `overrideQuirkInput` extract successfully with
non-empty content distinct from every placeholder, yet — because each value
ends with the literal text `"not available"` — the degenerate override still
fires: `summary` is replaced with the full stripped raw input and the `error`
key is added. -/
theorem endswith_override_quirk :
    sectionValues (pyStrip overrideQuirkInput) =
      { summary := "A not available".data
        meeting_info := "B not available".data
        topics := "C not available".data
        action_items := "D not available".data
        decisions := "E not available".data
        notes := "F not available".data
        error := none } ∧
    ("A not available".data ≠ placeholder summaryKey ∧
     "B not available".data ≠ placeholder meetingInfoKey ∧
     "C not available".data ≠ placeholder topicsKey ∧
     "D not available".data ≠ placeholder actionItemsKey ∧
     "E not available".data ≠ placeholder decisionsKey ∧
     "F not available".data ≠ placeholder notesKey) ∧
    (parseSections overrideQuirkInput).summary = pyStrip overrideQuirkInput ∧
    (parseSections overrideQuirkInput).error = some errMsg := by decide

/-! ### C3 — the pattern-loop semantics -/

theorem forall_mem_dropWhile_iff (p : α → Bool) (l : List α) :
    (∀ c ∈ l.dropWhile p, p c) ↔ (∀ c ∈ l, p c) := by
  constructor
  · intro h c hc
    rw [← List.takeWhile_append_dropWhile (p := p) (l := l)] at hc
    rcases List.mem_append.mp hc with h1 | h2
    · exact List.mem_takeWhile_imp h1
    · exact h c h2
  · intro h c hc
    exact h c ((List.dropWhile_suffix p).subset hc)

theorem pyStrip_eq_nil_iff (s : Str) : pyStrip s = [] ↔ ∀ c ∈ s, isPySpace c := by
  unfold pyStrip
  rw [List.reverse_eq_nil_iff, List.dropWhile_eq_nil_iff]
  constructor
  · intro h
    exact (forall_mem_dropWhile_iff _ _).mp (fun c hc => h c (List.mem_reverse.mpr hc))
  · intro h c hc
    exact h c ((List.dropWhile_suffix _).subset (List.mem_reverse.mp hc))

/-- Stripping an already non-empty stripped string cannot make it empty. -/
theorem pyStrip_pyStrip_ne_nil {s : Str} (h : pyStrip s ≠ []) :
    pyStrip (pyStrip s) ≠ [] := by
  intro hc
  apply h
  rw [pyStrip_eq_nil_iff] at hc
  unfold pyStrip
  rw [List.reverse_eq_nil_iff]
  have hall : ∀ c ∈ (s.dropWhile isPySpace).reverse.dropWhile isPySpace, isPySpace c := by
    intro c hmem
    exact hc c (by unfold pyStrip; exact List.mem_reverse.mpr hmem)
  calc (s.dropWhile isPySpace).reverse.dropWhile isPySpace
      = List.dropWhile isPySpace ((s.dropWhile isPySpace).reverse.dropWhile isPySpace) :=
        (List.dropWhile_idempotent _ _).symm
    _ = [] := List.dropWhile_eq_nil_iff.mpr hall

theorem findFirstMatch_eq_findSome? (pats : List Pat) (s : Str) :
    findFirstMatch pats s =
      (pats.findSome? (fun p => searchCapture p s)).map pyStrip := by
  induction pats with
  | nil => rfl
  | cons p ps ih =>
    rw [List.findSome?_cons]
    unfold findFirstMatch
    cases h : searchCapture p s with
    | some cap => rfl
    | none => exact ih

/-- The code's per-section result coincides with the amended first-match
semantics: the first matching pattern decides the section, and an
empty-after-trimming capture falls back to the placeholder without trying
later patterns. -/
theorem sectionValue_eq_amended (key : Str) (pats : List Pat) (s : Str) :
    sectionValue key pats s = sectionValueAmended key pats s := by
  unfold sectionValue sectionValueAmended
  rw [findFirstMatch_eq_findSome?]
  cases h : pats.findSome? (fun p => searchCapture p s) with
  | none => rfl
  | some cap =>
    show (if pyStrip cap ≠ [] ∧ pyStrip (pyStrip cap) ≠ [] then pyStrip cap
          else placeholder key) =
        (if pyStrip cap ≠ [] then pyStrip cap else placeholder key)
    by_cases hne : pyStrip cap ≠ []
    · rw [if_pos ⟨hne, pyStrip_pyStrip_ne_nil hne⟩, if_pos hne]
    · rw [if_neg (fun hand => hne hand.1), if_neg hne]

/-- The input separating the claim's loop semantics from the code's: the
strict summary pattern matches with an empty capture (the topics heading
immediately follows the summary heading), while the loose third pattern
would capture non-empty text. -/
def firstMatchStopsInput : Str :=
  "## MEETING SUMMARY\n### 🎯 Main Topics Discussed\n- Budget\nMEETING SUMMARY: hello".data

/-- C3, counterexample: the code breaks out of the pattern loop at the first
MATCHING pattern even when its trimmed capture is empty, so `summary` falls
back to the placeholder although a later pattern would have yielded non-empty
content — the claim's semantics (`sectionValueClaim`) disagrees with the
returned record. -/
theorem pattern_loop_claim_cex :
    (parseSections firstMatchStopsInput).summary = placeholder summaryKey ∧
    sectionValueClaim summaryKey summaryPats (pyStrip firstMatchStopsInput) ≠
      placeholder summaryKey ∧
    (parseSections firstMatchStopsInput).summary ≠
      sectionValueClaim summaryKey summaryPats (pyStrip firstMatchStopsInput) := by decide

/-- C3 (amended): every section's value follows first-MATCH-wins semantics:
the first pattern in the list that matches provides the capture, an
empty-after-trimming capture falls back to the placeholder without trying
later patterns (`summary` additionally subject to the degenerate
override). -/
theorem pattern_loop_first_match_semantics (response : Str) :
    (parseSections response).meeting_info =
      sectionValueAmended meetingInfoKey meetingInfoPats (pyStrip response) ∧
    (parseSections response).topics =
      sectionValueAmended topicsKey topicsPats (pyStrip response) ∧
    (parseSections response).action_items =
      sectionValueAmended actionItemsKey actionItemsPats (pyStrip response) ∧
    (parseSections response).decisions =
      sectionValueAmended decisionsKey decisionsPats (pyStrip response) ∧
    (parseSections response).notes =
      sectionValueAmended notesKey notesPats (pyStrip response) ∧
    (parseSections response).summary =
      (if naAll (sectionValues (pyStrip response)) then pyStrip response
       else sectionValueAmended summaryKey summaryPats (pyStrip response)) := by
  refine ⟨?_, ?_, ?_, ?_, ?_, ?_⟩
  · rw [parseSections_meeting_info, sectionValue_eq_amended]
  · rw [parseSections_topics, sectionValue_eq_amended]
  · rw [parseSections_action_items, sectionValue_eq_amended]
  · rw [parseSections_decisions, sectionValue_eq_amended]
  · rw [parseSections_notes, sectionValue_eq_amended]
  · rw [parseSections_summary, sectionValue_eq_amended]

/-! ### C4 — the meeting-context contract -/

/-- C4: `get_meeting_context` returns `""` when the store is not initialized,
when the backend raises, or when no chunk matches; and when the matching
chunks carry pairwise-distinct `chunk_index` values it returns exactly their
texts, arranged strictly ascending by `chunk_index` regardless of storage
order, joined with single spaces.  The function is total — every failure path
is absorbed into the `""` result, never an exception. -/
theorem get_meeting_context_contract (vs : Option VectorStore) (mid : Str) :
    (vs = none → get_meeting_context vs mid = []) ∧
    (∀ store, vs = some store → store.broken = true →
      get_meeting_context vs mid = []) ∧
    (∀ store, vs = some store → store.broken = false →
      matchingChunks store mid = [] → get_meeting_context vs mid = []) ∧
    (∀ store, vs = some store → store.broken = false →
      (matchingChunks store mid).Pairwise
        (fun a b => a.metadata.chunk_index ≠ b.metadata.chunk_index) →
      ∃ l : List StoredChunk, l.Perm (matchingChunks store mid) ∧
        (l.map (fun c => c.metadata.chunk_index)).Sorted (· < ·) ∧
        get_meeting_context vs mid =
          List.intercalate " ".data (l.map (fun c => c.document))) := by
  refine ⟨?_, ?_, ?_, ?_⟩
  · rintro rfl; rfl
  · rintro store rfl hb
    simp [get_meeting_context, VectorStore.getByMeeting, hb]
  · rintro store rfl hb hm
    simp [get_meeting_context, VectorStore.getByMeeting, hb, hm]
  · rintro store rfl hb hpair
    refine ⟨List.insertionSort chunkLe (matchingChunks store mid),
      List.perm_insertionSort chunkLe _, ?_, ?_⟩
    · have hsort : (List.insertionSort chunkLe (matchingChunks store mid)).Pairwise chunkLe :=
        List.sorted_insertionSort chunkLe _
      have hne : (List.insertionSort chunkLe (matchingChunks store mid)).Pairwise
          (fun a b => a.metadata.chunk_index ≠ b.metadata.chunk_index) :=
        ((List.perm_insertionSort chunkLe (matchingChunks store mid)).pairwise_iff
          (fun h => Ne.symm h)).mpr hpair
      have hlt : (List.insertionSort chunkLe (matchingChunks store mid)).Pairwise
          (fun a b => a.metadata.chunk_index < b.metadata.chunk_index) :=
        List.Pairwise.imp₂ (fun _ _ hle hn => Nat.lt_of_le_of_ne hle hn) hsort hne
      exact List.pairwise_map.mpr hlt
    · by_cases hm : matchingChunks store mid = []
      · simp [get_meeting_context, VectorStore.getByMeeting, hb, hm, List.insertionSort,
          List.intercalate]
      · simp [get_meeting_context, VectorStore.getByMeeting, hb, hm]

/-- A store holding two chunks of one meeting out of index order. -/
def sampleStore : VectorStore :=
  { entries :=
      [{ id := "m_chunk_1".data, document := "world".data
         metadata := { meeting_id := "m".data, chunk_index := 1
                       chunk_type := "transcript".data, total_chunks := 2 } },
       { id := "m_chunk_0".data, document := "hello".data
         metadata := { meeting_id := "m".data, chunk_index := 0
                       chunk_type := "transcript".data, total_chunks := 2 } }]
    broken := false }

theorem get_meeting_context_contract_check :
    ∃ l : List StoredChunk, l.Perm (matchingChunks sampleStore "m".data) ∧
      (l.map (fun c => c.metadata.chunk_index)).Sorted (· < ·) ∧
      get_meeting_context (some sampleStore) "m".data =
        List.intercalate " ".data (l.map (fun c => c.document)) :=
  (get_meeting_context_contract (some sampleStore) "m".data).2.2.2
    sampleStore rfl rfl (by decide)

/-! ### C5 — storing a transcript -/

theorem mkEntries_maps :
    ∀ (ids texts : List Str) (metas : List ChunkMeta),
      ids.length = texts.length → texts.length = metas.length →
      (mkEntries ids texts metas).map (fun c => c.id) = ids ∧
      (mkEntries ids texts metas).map (fun c => c.document) = texts ∧
      (mkEntries ids texts metas).map (fun c => c.metadata) = metas := by
  intro ids
  induction ids with
  | nil =>
    intro texts metas h1 h2
    cases texts with
    | nil =>
      cases metas with
      | nil => exact ⟨rfl, rfl, rfl⟩
      | cons m ms => simp at h2
    | cons t ts => simp at h1
  | cons i is ih =>
    intro texts metas h1 h2
    cases texts with
    | nil => simp at h1
    | cons t ts =>
      cases metas with
      | nil => simp at h2
      | cons m ms =>
        obtain ⟨ha, hb, hc⟩ := ih ts ms (by simpa using h1) (by simpa using h2)
        exact ⟨by simp [mkEntries, ha], by simp [mkEntries, hb], by simp [mkEntries, hc]⟩

theorem transcriptEntries_maps (mid : Str) (chunks : List Str) :
    (transcriptEntries mid chunks).map (fun c => c.id) =
      (List.range chunks.length).map (fun i => chunkId mid i) ∧
    (transcriptEntries mid chunks).map (fun c => c.document) = chunks ∧
    (transcriptEntries mid chunks).map (fun c => c.metadata) =
      (List.range chunks.length).map (fun i => mkMeta mid i chunks.length) := by
  apply mkEntries_maps <;> simp

/-- The `chunk_index` values of a freshly stored transcript are exactly
`0, 1, …, n−1`. -/
theorem transcriptEntries_indices (mid : Str) (chunks : List Str) :
    (transcriptEntries mid chunks).map (fun c => c.metadata.chunk_index) =
      List.range chunks.length := by
  have h := (transcriptEntries_maps mid chunks).2.2
  have h2 := congrArg (List.map (fun m : ChunkMeta => m.chunk_index)) h
  rw [List.map_map, List.map_map] at h2
  simp only [Function.comp_def] at h2
  simpa [mkMeta] using h2

theorem transcriptEntries_all_match (mid : Str) (chunks : List Str) :
    ∀ c ∈ transcriptEntries mid chunks, (c.metadata.meeting_id == mid) = true := by
  intro c hc
  have h := (transcriptEntries_maps mid chunks).2.2
  have hmem : c.metadata ∈ (List.range chunks.length).map
      (fun i => mkMeta mid i chunks.length) := by
    rw [← h]; exact List.mem_map_of_mem _ hc
  rcases List.mem_map.mp hmem with ⟨i, _, hi⟩
  rw [← hi]
  simp [mkMeta]

/-- C5, counterexample: storing fails although splitting produced a chunk —
here because the vector store is not initialized, so the storage call lands
in the `except` branch; failure is therefore not equivalent to "splitting
yields zero chunks". -/
theorem store_failure_not_only_empty_split :
    (fun _ : Str => ["x".data]) "t".data ≠ [] ∧
    (process_and_store_transcript (fun _ => ["x".data]) none "t".data "m".data).1.1
      = false := by
  exact ⟨by decide, rfl⟩

/-- C5 (amended): storing fails exactly when splitting yields zero chunks OR
the vector store is unavailable / its backend raises; on success with `n`
chunks, chunk `i` is stored with id `f"{meeting_id}_chunk_{i}"`, document the
`i`-th chunk text and metadata `chunk_index = i`, `total_chunks = n`,
`chunk_type = "transcript"`, so the meeting's stored `chunk_index` values
(on a store previously holding no chunk for this meeting) are exactly
`0, 1, …, n−1` with no gaps or duplicates. -/
theorem process_and_store_contract (split : Str → List Str) (vs : Option VectorStore)
    (transcript mid : Str) :
    ((process_and_store_transcript split vs transcript mid).1.1 = true ↔
      (split transcript ≠ [] ∧ ∃ store, vs = some store ∧ store.broken = false)) ∧
    (∀ store, vs = some store → store.broken = false → split transcript ≠ [] →
      (process_and_store_transcript split vs transcript mid).2 =
        some { store with
                entries := store.entries ++ transcriptEntries mid (split transcript) } ∧
      (transcriptEntries mid (split transcript)).map (fun c => c.id) =
        (List.range (split transcript).length).map (fun i => chunkId mid i) ∧
      (transcriptEntries mid (split transcript)).map (fun c => c.document) =
        split transcript ∧
      (transcriptEntries mid (split transcript)).map (fun c => c.metadata) =
        (List.range (split transcript).length).map
          (fun i => mkMeta mid i (split transcript).length) ∧
      (matchingChunks store mid = [] →
        (matchingChunks
            { store with
                entries := store.entries ++ transcriptEntries mid (split transcript) }
            mid).map (fun c => c.metadata.chunk_index) =
          List.range (split transcript).length)) := by
  constructor
  · by_cases hs : split transcript = []
    · simp [process_and_store_transcript, hs]
    · cases vs with
      | none => simp [process_and_store_transcript, hs]
      | some store =>
        by_cases hb : store.broken
        · simp [process_and_store_transcript, hs, hb]
        · simp [process_and_store_transcript, hs, hb]
  · rintro store rfl hb hs
    refine ⟨?_, (transcriptEntries_maps mid (split transcript)).1,
      (transcriptEntries_maps mid (split transcript)).2.1,
      (transcriptEntries_maps mid (split transcript)).2.2, ?_⟩
    · simp [process_and_store_transcript, hs, hb, add_texts, transcriptEntries]
    · intro hclean
      have hmatch : matchingChunks
          { store with
              entries := store.entries ++ transcriptEntries mid (split transcript) } mid
          = transcriptEntries mid (split transcript) := by
        unfold matchingChunks at hclean ⊢
        rw [List.filter_append, hclean, List.nil_append,
          List.filter_eq_self.mpr (transcriptEntries_all_match mid (split transcript))]
      rw [hmatch, transcriptEntries_indices]

def sampleSplit : Str → List Str := fun _ => ["alpha".data, "beta".data]

def emptyStore : VectorStore := { entries := [], broken := false }

theorem process_and_store_contract_check :
    (process_and_store_transcript sampleSplit (some emptyStore) "t".data "m".data).1.1
      = true ∧
    (matchingChunks
        { emptyStore with
            entries := emptyStore.entries ++ transcriptEntries "m".data (sampleSplit "t".data) }
        "m".data).map (fun c => c.metadata.chunk_index) =
      List.range (sampleSplit "t".data).length :=
  ⟨(process_and_store_contract sampleSplit (some emptyStore) "t".data "m".data).1.mpr
      ⟨by decide, emptyStore, rfl, rfl⟩,
   ((process_and_store_contract sampleSplit (some emptyStore) "t".data "m".data).2
      emptyStore rfl rfl (by decide)).2.2.2.2 (by decide)⟩

/-! ### C9 — the similarity-query contract -/

/-- C9: `retrieve_relevant_chunks` returns `[]` when the store is not
initialized or the backend search raises (the `except` branch), and — under
the collaborator contract that similarity search returns at most `k`
documents — it returns at most `k` chunk texts.  The function is total:
every failure is absorbed into `[]`, never an exception. -/
theorem retrieve_relevant_chunks_contract
    (search : Str → Nat → Except Str (List RetrievedDoc))
    (vs : Option VectorStore) (query : Str) (k : Nat) :
    (vs = none → retrieve_relevant_chunks search vs query k = []) ∧
    (∀ e, search query k = Except.error e →
      retrieve_relevant_chunks search vs query k = []) ∧
    ((∀ docs, search query k = Except.ok docs → docs.length ≤ k) →
      (retrieve_relevant_chunks search vs query k).length ≤ k) := by
  refine ⟨?_, ?_, ?_⟩
  · rintro rfl; rfl
  · intro e he
    cases vs with
    | none => rfl
    | some store => simp [retrieve_relevant_chunks, he]
  · intro hbound
    cases vs with
    | none => simp [retrieve_relevant_chunks]
    | some store =>
      cases hs : search query k with
      | error e => simp [retrieve_relevant_chunks, hs]
      | ok docs => simpa [retrieve_relevant_chunks, hs] using hbound docs hs

theorem retrieve_relevant_chunks_contract_check :
    (retrieve_relevant_chunks (fun _ _ => Except.ok [{ page_content := "ctx".data }])
      (some emptyStore) "q".data 5).length ≤ 5 :=
  (retrieve_relevant_chunks_contract (fun _ _ => Except.ok [{ page_content := "ctx".data }])
    (some emptyStore) "q".data 5).2.2
    (fun docs h => by cases h; decide)

end MeetingSummary
